import Mathlib

/-!
Verification development for the task-management chatbot backend.

The embedding follows `src/backend/src/services/task_integration_service.py`
(the Task Store Adapter: `add_task`, `complete_task`, `list_tasks`,
`update_task`, `delete_task`) and `src/backend/src/api/v1/chat_endpoints.py`
(the chat turn handler).  The persistent store is modelled as a list of task
records; one SQLAlchemy session transaction is modelled by fault oracles:
`commitFault = some e` means an exception with text `e` is raised at
`session.commit()`, which the service catches, answering with a failure
envelope after rolling the store back, and (for `add_task`, which also calls
`session.refresh(task)` inside the `try`) `refreshFault = some e` means an
exception raised at the refresh, after the commit has already succeeded, so
the failure envelope is returned with the task nonetheless persisted.
Timestamps are natural
numbers (`datetime.utcnow()` is passed in as the parameter `now`), ids are
strings (UUIDs rendered with `str`), and `datetime.fromisoformat` is an
abstract parameter `parse : String → Option Nat` (`none` = `ValueError`).
-/

namespace TodoApp

/-- Python truthiness of an `Optional[str]` argument: `None` and `""` are
falsy, every other string is truthy. -/
def truthy : Option String → Bool
  | none => false
  | some s => s ≠ ""

/-- Python `x or d` for `x : Optional[str]`: yields `d` when `x` is falsy. -/
def orDefault (v : Option String) (d : String) : String :=
  match v with
  | none => d
  | some s => if s = "" then d else s

/-- Task record, mirroring the `Task` model fields used by the service:
`id`, `user_id`, `title`, `description`, `completed`, `priority`,
`due_date`, `created_at`, `updated_at`. -/
structure Task where
  id : String
  user_id : String
  title : String
  description : String
  completed : Bool
  priority : String
  due_date : Option Nat
  created_at : Nat
  updated_at : Nat
deriving Repr, DecidableEq

/-- Exceptions that can be raised inside a service operation: a model
validation error, or a storage/commit error. -/
inductive PyExc where
  | validationError : String → PyExc
  | dbError : String → PyExc
deriving Repr, DecidableEq

/-- Python `str(e)` on a caught exception. -/
def PyExc.str : PyExc → String
  | .validationError m => m
  | .dbError m => m

/-- Projection of a task used by `list_tasks` (`due_date.isoformat()` is
modelled by rendering the abstract timestamp). -/
structure TaskItem where
  id : String
  title : String
  description : String
  completed : Bool
  priority : String
  due_date : Option String
deriving Repr, DecidableEq

/-- Result dictionary returned by every service operation.  A field of value
`none` models a key that is absent from the Python dict. -/
structure TaskResult where
  success : Bool
  error : Option String
  message : String
  task_id : Option String
  title : Option String
  tasks : Option (List TaskItem)
  count : Option Nat
deriving Repr, DecidableEq

/-- Failure envelope `{"success": False, "error": str(e), "message": msg}`. -/
def mkFailure (msg err : String) : TaskResult :=
  ⟨false, some err, msg, none, none, none, none⟩

/-- Not-found envelope
`{"success": False, "message": "Task not found or access denied"}` —
note that it carries no `error` key. -/
def notFoundResult : TaskResult :=
  ⟨false, none, "Task not found or access denied", none, none, none, none⟩

/-- Modelled from the spec: the `Task` model constructor (`models/task.py`,
imported by the service but not part of this source snapshot) validates that
`title` is non-empty, raising a `ValidationError` otherwise; all other fields
are stored as given. -/
def mkTask (id user_id title description priority : String) (now : Nat) :
    Except PyExc Task :=
  if title = "" then
    .error (.validationError "Title cannot be empty")
  else
    .ok ⟨id, user_id, title, description, false, priority, none, now, now⟩

/-- WHERE clause `Task.id == task_id, Task.user_id == user_id`. -/
def taskMatches (task_id user_id : String) (t : Task) : Bool :=
  t.id == task_id && t.user_id == user_id

/-- Query `select(Task).where(Task.id == task_id, Task.user_id == user_id)`
followed by `.first()`. -/
def findTask (db : List Task) (task_id user_id : String) : Option Task :=
  (db.filter (taskMatches task_id user_id)).head?

/-- ORM in-place mutation of the selected row followed by commit: the first
record satisfying `p` is replaced by its image under `f`. -/
def replaceFirst (p : Task → Bool) (f : Task → Task) : List Task → List Task
  | [] => []
  | t :: ts => if p t then f t :: ts else t :: replaceFirst p f ts

/-- Deletion of the selected row: the first record satisfying `p` is
removed. -/
def removeFirst (p : Task → Bool) : List Task → List Task
  | [] => []
  | t :: ts => if p t then ts else t :: removeFirst p ts

/-- Parsing of the optional `due_date` argument as done by both `add_task`
and `update_task`: if the argument is truthy, try
`datetime.fromisoformat(due_date.replace("Z", "+00:00"))` and set the field,
and silently keep the task unchanged when parsing fails (`except: pass`). -/
def applyDueDate (parse : String → Option Nat) (due_date : Option String)
    (t : Task) : Task :=
  if truthy due_date then
    match parse ((due_date.getD "").replace "Z" "+00:00") with
    | some d => { t with due_date := some d }
    | none => t
  else t

/-- Embedding of `TaskIntegrationService.add_task`.  `commitFault` models an
exception at `session.commit()`, rolled back with the store unchanged;
`refreshFault` models an exception at `session.refresh(task)`, which the
source runs inside the `try` after the commit has already succeeded, so that
failure path returns the failure envelope with the task nonetheless
committed (`session.rollback()` cannot undo a committed transaction). -/
def add_task (parse : String → Option Nat)
    (commitFault refreshFault : Option String) (db : List Task)
    (newId : String) (now : Nat) (user_id title : String)
    (description priority due_date : Option String) :
    TaskResult × List Task :=
  match mkTask newId user_id title (orDefault description "")
      (orDefault priority "medium") now with
  | .error e =>
      (mkFailure ("Failed to add task: " ++ e.str) e.str, db)
  | .ok task0 =>
      let task := applyDueDate parse due_date task0
      match commitFault with
      | some e => (mkFailure ("Failed to add task: " ++ e) e, db)
      | none =>
          match refreshFault with
          | some e =>
              (mkFailure ("Failed to add task: " ++ e) e, db ++ [task])
          | none =>
              (⟨true, none, "Task \x27" ++ title ++ "\x27 added successfully",
                some task.id, some task.title, none, none⟩,
               db ++ [task])

/-- Embedding of `TaskIntegrationService.complete_task`. -/
def complete_task (commitFault : Option String) (db : List Task) (now : Nat)
    (user_id task_id : String) : TaskResult × List Task :=
  match findTask db task_id user_id with
  | none => (notFoundResult, db)
  | some task =>
      match commitFault with
      | some e => (mkFailure ("Failed to complete task: " ++ e) e, db)
      | none =>
          (⟨true, none,
            "Task \x27" ++ task.title ++ "\x27 marked as completed",
            some task.id, none, none, none⟩,
           replaceFirst (taskMatches task_id user_id)
             (fun t => { t with completed := true, updated_at := now }) db)

/-- Filter of `list_tasks`: always `Task.user_id == user_id`, plus
`Task.completed == completed` when the filter is not `None`. -/
def matchesFilter (user_id : String) (completed : Option Bool) (t : Task) :
    Bool :=
  t.user_id == user_id &&
    (match completed with
     | none => true
     | some c => t.completed == c)

/-- Rows produced by the `list_tasks` query: filter by owner (and completion
when requested), order by `created_at` descending, cap at `limit`. -/
def listChosen (db : List Task) (user_id : String) (completed : Option Bool)
    (limit : Nat) : List Task :=
  ((db.filter (matchesFilter user_id completed)).mergeSort
      (fun a b => decide (b.created_at ≤ a.created_at))).take limit

/-- Projection of one task into the dictionary built by `list_tasks`. -/
def taskItem (t : Task) : TaskItem :=
  ⟨t.id, t.title, t.description, t.completed, t.priority,
   t.due_date.map toString⟩

/-- Embedding of `TaskIntegrationService.list_tasks`; `queryFault` models an
exception raised while executing the query. -/
def list_tasks (queryFault : Option String) (db : List Task)
    (user_id : String) (completed : Option Bool) (limit : Nat) : TaskResult :=
  match queryFault with
  | some e => mkFailure ("Failed to list tasks: " ++ e) e
  | none =>
      let items := (listChosen db user_id completed limit).map taskItem
      ⟨true, none, "Found " ++ toString items.length ++ " tasks",
       none, none, some items, some items.length⟩

/-- Field updates performed by `update_task` on the selected row: each truthy
argument overwrites its field, `due_date` is parsed as in `add_task`, and
`updated_at` is always refreshed. -/
def applyUpdate (parse : String → Option Nat)
    (title description priority due_date : Option String) (now : Nat)
    (t : Task) : Task :=
  let t1 := if truthy title then { t with title := title.getD "" } else t
  let t2 :=
    if truthy description then { t1 with description := description.getD "" }
    else t1
  let t3 :=
    if truthy priority then { t2 with priority := priority.getD "" } else t2
  let t4 := applyDueDate parse due_date t3
  { t4 with updated_at := now }

/-- Embedding of `TaskIntegrationService.update_task`. -/
def update_task (parse : String → Option Nat) (commitFault : Option String)
    (db : List Task) (now : Nat) (user_id task_id : String)
    (title description priority due_date : Option String) :
    TaskResult × List Task :=
  match findTask db task_id user_id with
  | none => (notFoundResult, db)
  | some task =>
      match commitFault with
      | some e => (mkFailure ("Failed to update task: " ++ e) e, db)
      | none =>
          let updated := applyUpdate parse title description priority
            due_date now task
          (⟨true, none,
            "Task \x27" ++ updated.title ++ "\x27 updated successfully",
            some task.id, none, none, none⟩,
           replaceFirst (taskMatches task_id user_id)
             (applyUpdate parse title description priority due_date now) db)

/-- Embedding of `TaskIntegrationService.delete_task`. -/
def delete_task (commitFault : Option String) (db : List Task)
    (user_id task_id : String) : TaskResult × List Task :=
  match findTask db task_id user_id with
  | none => (notFoundResult, db)
  | some task =>
      match commitFault with
      | some e => (mkFailure ("Failed to delete task: " ++ e) e, db)
      | none =>
          (⟨true, none, "Task \x27" ++ task.title ++ "\x27 deleted successfully",
            some task_id, none, none, none⟩,
           removeFirst (taskMatches task_id user_id) db)

/-- Conversation record (`id`, `user_id`, timestamps). -/
structure Conversation where
  id : Nat
  user_id : String
  created_at : Nat
  updated_at : Nat
deriving Repr, DecidableEq

/-- Message record (`id`, `conversation_id`, `role`, `content`,
`created_at`). -/
structure Message where
  id : Nat
  conversation_id : Nat
  role : String
  content : String
  created_at : Nat
deriving Repr, DecidableEq

/-- Persistent chat state: all conversations and all messages. -/
structure ChatState where
  conversations : List Conversation
  messages : List Message
deriving Repr, DecidableEq

/-- Classified errors of the chat turn handler (`core/errors.py` taxonomy as
used by `chat_endpoints.py`). -/
inductive ChatError where
  | invalidMessage : String → ChatError
  | notFound : String → ChatError
  | internal : String → ChatError
deriving Repr, DecidableEq

/-- Tool-call record attached to the turn response. -/
structure ToolCallRec where
  tool : String
  arguments : List (String × String)
  result : TaskResult
deriving Repr, DecidableEq

/-- Turn result assembled by the chat endpoint (`response_time` is wall-clock
time and is not modelled). -/
structure ChatTurn where
  conversation_id : Nat
  response : String
  tool_calls : List ToolCallRec
deriving Repr, DecidableEq

/-- Modelled from the spec: `ChatService.create_conversation` (in
`services/chat_service.py`, which is not part of this source snapshot)
creates a new conversation owned by `user_id` and persists it. -/
def create_conversation (user_id : String) (newConvId now : Nat)
    (st : ChatState) : Conversation × ChatState :=
  let conv : Conversation := ⟨newConvId, user_id, now, now⟩
  (conv, ⟨st.conversations ++ [conv], st.messages⟩)

/-- Modelled from the spec: `ChatService.get_conversation` fails with
`NotFoundError` unless the conversation exists and is owned by `user_id`;
absence and ownership mismatch are indistinguishable. -/
def get_conversation (conversation_id : Nat) (user_id : String)
    (st : ChatState) : Except ChatError Conversation :=
  match (st.conversations.filter
      (fun c => c.id == conversation_id && c.user_id == user_id)).head? with
  | none => .error (.notFound "Conversation not found")
  | some c => .ok c

/-- Modelled from the spec: `ChatService.add_message` appends a message to
the conversation and refreshes the conversation last-updated timestamp. -/
def add_message (conversation_id : Nat) (role content : String)
    (newMsgId now : Nat) (st : ChatState) : ChatState :=
  ⟨st.conversations.map
      (fun c => if c.id == conversation_id then { c with updated_at := now }
                else c),
   st.messages ++ [⟨newMsgId, conversation_id, role, content, now⟩]⟩

/-- Modelled from the spec: `ChatService.get_conversation_history` returns
the `limit` most recent messages of the conversation, oldest first. -/
def get_conversation_history (conversation_id : Nat) (limit : Nat)
    (st : ChatState) : List Message :=
  let msgs := st.messages.filter (fun m => m.conversation_id == conversation_id)
  msgs.drop (msgs.length - limit)

/-- Python `str.strip()`: drop leading and trailing whitespace. -/
def pyStrip (s : String) : String :=
  ⟨((s.data.dropWhile Char.isWhitespace).reverse.dropWhile
      Char.isWhitespace).reverse⟩

/-- Python truthiness of the `Optional[int]` conversation id: `None` and `0`
are falsy. -/
def truthyNat : Option Nat → Bool
  | none => false
  | some n => n ≠ 0

/-- Conversation resolution step of the chat endpoint: fetch when a truthy
`conversation_id` was sent, create a fresh conversation otherwise. -/
def resolve_conversation (user_id : String) (conversation_id : Option Nat)
    (newConvId now : Nat) (st : ChatState) :
    Except ChatError (Conversation × ChatState) :=
  if truthyNat conversation_id then
    match get_conversation (conversation_id.getD 0) user_id st with
    | .error e => .error e
    | .ok c => .ok (c, st)
  else
    .ok (create_conversation user_id newConvId now st)

/-- Embedding of the `chat` endpoint handler (`chat_endpoints.py`).  The AI
agent call is external; its outcome is passed in as the oracle values
`aiResponse` and `aiToolCalls`.  The handler validates the message, resolves
the conversation, persists the user message, fetches bounded history for the
agent, persists the assistant message only when the response is non-empty,
and assembles the turn result. -/
def chat (user_id : String) (conversation_id : Option Nat) (message : String)
    (aiResponse : String) (aiToolCalls : List ToolCallRec)
    (newConvId newMsgId1 newMsgId2 now : Nat) (st : ChatState) :
    Except ChatError ChatTurn × ChatState :=
  if message = "" ∨ (pyStrip message).length = 0 then
    (.error (.invalidMessage "Message cannot be empty"), st)
  else
    match resolve_conversation user_id conversation_id newConvId now st with
    | .error e => (.error e, st)
    | .ok (conv, st1) =>
        let st2 := add_message conv.id "user" message newMsgId1 now st1
        let _history := get_conversation_history conv.id 20 st2
        let st3 :=
          if aiResponse ≠ "" then
            add_message conv.id "assistant" aiResponse newMsgId2 now st2
          else st2
        (.ok ⟨conv.id, aiResponse, aiToolCalls⟩, st3)

/-! Shared helper lemmas about the query and row-replacement primitives. -/

/-- Decomposition of a successful `.first()` query: the store splits around
the returned record, everything before it failing the filter. -/
theorem filter_head_eq_some {p : Task → Bool} {db : List Task} {task : Task}
    (h : (db.filter p).head? = some task) :
    p task = true ∧ ∃ pre post, db = pre ++ task :: post ∧
      ∀ x ∈ pre, p x = false := by
  induction db with
  | nil => simp at h
  | cons t ts ih =>
    rw [List.filter_cons] at h
    by_cases hp : p t
    · rw [if_pos hp, List.head?_cons] at h
      obtain rfl : t = task := Option.some.inj h
      exact ⟨hp, [], ts, rfl, by simp⟩
    · rw [if_neg hp] at h
      obtain ⟨hpt, pre, post, hdb, hpre⟩ := ih h
      refine ⟨hpt, t :: pre, post, by rw [hdb]; rfl, ?_⟩
      intro x hx
      rcases List.mem_cons.mp hx with hx | hx
      · subst hx
        exact Bool.eq_false_iff.mpr hp
      · exact hpre x hx

/-- Version of `filter_head_eq_some` phrased on `findTask`. -/
theorem findTask_decomp {db : List Task} {task_id user_id : String}
    {task : Task} (h : findTask db task_id user_id = some task) :
    taskMatches task_id user_id task = true ∧
    ∃ pre post, db = pre ++ task :: post ∧
      ∀ x ∈ pre, taskMatches task_id user_id x = false :=
  filter_head_eq_some h

/-- Querying a store split around a matching record finds that record. -/
theorem findTask_append {pre post : List Task} {t : Task}
    {task_id user_id : String}
    (hpre : ∀ x ∈ pre, taskMatches task_id user_id x = false)
    (hpt : taskMatches task_id user_id t = true) :
    findTask (pre ++ t :: post) task_id user_id = some t := by
  induction pre with
  | nil => simp [findTask, List.filter_cons, hpt]
  | cons a as ih =>
    have ha : taskMatches task_id user_id a = false := hpre a (by simp)
    have has : ∀ x ∈ as, taskMatches task_id user_id x = false :=
      fun x hx => hpre x (by simp [hx])
    simpa [findTask, List.filter_cons, ha] using ih has

/-- A store with no matching record answers the query with `none`. -/
theorem findTask_eq_none {db : List Task} {task_id user_id : String}
    (h : ∀ t ∈ db, ¬(t.id = task_id ∧ t.user_id = user_id)) :
    findTask db task_id user_id = none := by
  unfold findTask
  rw [List.head?_eq_none_iff, List.filter_eq_nil_iff]
  intro t ht hcontra
  simp [taskMatches] at hcontra
  exact h t ht ⟨hcontra.1, hcontra.2⟩

/-- Replacing in a store split around the first matching record rewrites
exactly that record. -/
theorem replaceFirst_append {p : Task → Bool} {f : Task → Task}
    {pre post : List Task} {t : Task}
    (hpre : ∀ x ∈ pre, p x = false) (hpt : p t = true) :
    replaceFirst p f (pre ++ t :: post) = pre ++ f t :: post := by
  induction pre with
  | nil => simp [replaceFirst, hpt]
  | cons a as ih =>
    have ha : p a = false := hpre a (by simp)
    have has : ∀ x ∈ as, p x = false := fun x hx => hpre x (by simp [hx])
    simpa [replaceFirst, ha] using ih has

/-- Removing from a store split around the first matching record deletes
exactly that record. -/
theorem removeFirst_append {p : Task → Bool} {pre post : List Task} {t : Task}
    (hpre : ∀ x ∈ pre, p x = false) (hpt : p t = true) :
    removeFirst p (pre ++ t :: post) = pre ++ post := by
  induction pre with
  | nil => simp [removeFirst, hpt]
  | cons a as ih =>
    have ha : p a = false := hpre a (by simp)
    have has : ∀ x ∈ as, p x = false := fun x hx => hpre x (by simp [hx])
    simpa [removeFirst, ha] using ih has

/-- Empty strings are the only strings of length zero. -/
theorem string_length_zero {s : String} (h : s.length = 0) : s = "" := by
  cases s with
  | mk data =>
    simp [String.length] at h
    simp [h]

/-- Appending anything to a non-empty string literal stays non-empty. -/
theorem append_ne_empty {s : String} (e : String) (hs : s.length ≠ 0) :
    s ++ e ≠ "" := by
  intro h
  have hlen := congrArg String.length h
  rw [String.length_append] at hlen
  simp at hlen
  exact hs hlen.1

/-- Envelope discipline of one failed operation: a failure envelope has a
non-empty message and either carries the caught error string or is the
not-found envelope. -/
def failsEnvelope (r : TaskResult) : Prop :=
  r.success = false →
    r.message ≠ "" ∧ ((∃ e, r.error = some e) ∨ r = notFoundResult)

/-- Rollback discipline of one operation result: a failed call leaves the
store exactly as it was handed in (the transaction was rolled back or never
started). -/
def failureRollsBack (r : TaskResult × List Task) (db : List Task) : Prop :=
  r.1.success = false → r.2 = db

/-! Claim theorems. -/

/-- C1: for every owner, calling `add_task` with an empty title fails: the
`Task` model constructor raises `ValidationError`, the returned envelope has
`success = false` and carries that error, and the store is unchanged — no
task record is created for an empty title. -/
theorem add_task_empty_title_fails (parse : String → Option Nat)
    (commitFault refreshFault : Option String) (db : List Task)
    (newId : String) (now : Nat) (user_id : String)
    (description priority due_date : Option String) :
    mkTask newId user_id "" (orDefault description "")
        (orDefault priority "medium") now
      = Except.error (PyExc.validationError "Title cannot be empty") ∧
    (add_task parse commitFault refreshFault db newId now user_id ""
        description priority due_date).1.success = false ∧
    (add_task parse commitFault refreshFault db newId now user_id ""
        description priority due_date).1.error
      = some (PyExc.validationError "Title cannot be empty").str ∧
    (add_task parse commitFault refreshFault db newId now user_id ""
        description priority due_date).2 = db := by
  refine ⟨by simp [mkTask], ?_, ?_, ?_⟩ <;>
    simp [add_task, mkTask, mkFailure, PyExc.str]

/-- C2: when no task in the store matches both the task id and the owner id,
`complete_task`, `update_task` and `delete_task` all answer with the one
not-found envelope
`{"success": False, "message": "Task not found or access denied"}` and leave
the store untouched, so a caller cannot distinguish absence from ownership
mismatch. -/
theorem not_found_uniform (parse : String → Option Nat)
    (cf1 cf2 cf3 : Option String) (db : List Task) (now1 now2 : Nat)
    (user_id task_id : String)
    (title description priority due_date : Option String)
    (h : ∀ t ∈ db, ¬(t.id = task_id ∧ t.user_id = user_id)) :
    complete_task cf1 db now1 user_id task_id = (notFoundResult, db) ∧
    update_task parse cf2 db now2 user_id task_id title description priority
        due_date = (notFoundResult, db) ∧
    delete_task cf3 db user_id task_id = (notFoundResult, db) ∧
    notFoundResult
      = ⟨false, none, "Task not found or access denied", none, none, none,
         none⟩ := by
  have hn := findTask_eq_none h
  refine ⟨?_, ?_, ?_, rfl⟩ <;>
    simp [complete_task, update_task, delete_task, hn]

/-- Concrete instance of `not_found_uniform`: a store holding one task owned
by `u2`, queried with owner `u1` and that same task id. -/
theorem not_found_uniform_witness :
    complete_task none [⟨"t1", "u2", "T", "", false, "medium", none, 0, 0⟩] 5
        "u1" "t1"
      = (notFoundResult,
         [⟨"t1", "u2", "T", "", false, "medium", none, 0, 0⟩]) :=
  (not_found_uniform (fun _ => none) none none none
    [⟨"t1", "u2", "T", "", false, "medium", none, 0, 0⟩] 5 5 "u1" "t1"
    none none none none (by decide)).1

/-- C3 counterexample: the not-found failure envelope returned by
`complete_task` has `success = false` but carries no `error` key at all, so
not every failure comes back in the claimed shape
`{success: false, error, message}`. -/
theorem failure_envelope_without_error_key :
    (complete_task none [] 0 "u1" "t1").1.success = false ∧
    (complete_task none [] 0 "u1" "t1").1.error = none ∧
    (complete_task none [] 0 "u1" "t1").1.message
      = "Task not found or access denied" :=
  ⟨rfl, rfl, rfl⟩

/-- C3 (amended): no task operation raises past its own boundary — each is a
total function into the envelope type — and every failure is an envelope
with `success = false` and a non-empty message that either carries the
caught error string or is the not-found envelope (which has no `error` key).
Any failure of `complete_task`, `update_task` or `delete_task` leaves the
store exactly as handed in, as does any `add_task` failure raised before or
at the commit (validation or commit error); but an exception raised by
`session.refresh` after a successful commit makes `add_task` return a
failure envelope with the inserted task nonetheless committed, so the
rollback guarantee does not cover that path. -/
theorem task_ops_fail_safely (parse : String → Option Nat)
    (cfA rfA cfC cfU cfD cfL : Option String) (db : List Task)
    (newId : String) (nowA nowC nowU : Nat) (user_id task_id title : String)
    (dA pA ddA tU dU pU ddU : Option String) (completed : Option Bool)
    (limit : Nat) :
    failsEnvelope (add_task parse cfA rfA db newId nowA user_id title dA pA
        ddA).1 ∧
    failsEnvelope (complete_task cfC db nowC user_id task_id).1 ∧
    failsEnvelope (update_task parse cfU db nowU user_id task_id tU dU pU
        ddU).1 ∧
    failsEnvelope (delete_task cfD db user_id task_id).1 ∧
    failsEnvelope (list_tasks cfL db user_id completed limit) ∧
    failureRollsBack (add_task parse cfA none db newId nowA user_id title dA
        pA ddA) db ∧
    (∀ e, (add_task parse (some e) rfA db newId nowA user_id title dA pA
        ddA).2 = db) ∧
    failureRollsBack (complete_task cfC db nowC user_id task_id) db ∧
    failureRollsBack (update_task parse cfU db nowU user_id task_id tU dU pU
        ddU) db ∧
    failureRollsBack (delete_task cfD db user_id task_id) db ∧
    (title ≠ "" → ∀ e,
      (add_task parse none (some e) db newId nowA user_id title dA pA
          ddA).1 = mkFailure ("Failed to add task: " ++ e) e ∧
      (add_task parse none (some e) db newId nowA user_id title dA pA
          ddA).2
        = db ++ [applyDueDate parse ddA
            ⟨newId, user_id, title, orDefault dA "", false,
             orDefault pA "medium", none, nowA, nowA⟩]) := by
  refine ⟨?_, ?_, ?_, ?_, ?_, ?_, ?_, ?_, ?_, ?_, ?_⟩
  · by_cases ht : title = ""
    · subst ht
      intro _
      refine ⟨?_, Or.inl ⟨"Title cannot be empty", rfl⟩⟩
      show ("Failed to add task: " ++ "Title cannot be empty" : String) ≠ ""
      decide
    · simp only [add_task, mkTask, if_neg ht]
      rcases cfA with _ | e
      · rcases rfA with _ | e
        · intro hfail
          simp at hfail
        · intro _
          exact ⟨append_ne_empty e (by decide), Or.inl ⟨e, rfl⟩⟩
      · intro _
        exact ⟨append_ne_empty e (by decide), Or.inl ⟨e, rfl⟩⟩
  · rcases hfind : findTask db task_id user_id with _ | task
    · simp only [complete_task, hfind]
      intro _
      refine ⟨?_, Or.inr rfl⟩
      show notFoundResult.message ≠ ""
      decide
    · simp only [complete_task, hfind]
      rcases cfC with _ | e
      · intro hfail
        simp at hfail
      · intro _
        exact ⟨append_ne_empty e (by decide), Or.inl ⟨e, rfl⟩⟩
  · rcases hfind : findTask db task_id user_id with _ | task
    · simp only [update_task, hfind]
      intro _
      refine ⟨?_, Or.inr rfl⟩
      show notFoundResult.message ≠ ""
      decide
    · simp only [update_task, hfind]
      rcases cfU with _ | e
      · intro hfail
        simp at hfail
      · intro _
        exact ⟨append_ne_empty e (by decide), Or.inl ⟨e, rfl⟩⟩
  · rcases hfind : findTask db task_id user_id with _ | task
    · simp only [delete_task, hfind]
      intro _
      refine ⟨?_, Or.inr rfl⟩
      show notFoundResult.message ≠ ""
      decide
    · simp only [delete_task, hfind]
      rcases cfD with _ | e
      · intro hfail
        simp at hfail
      · intro _
        exact ⟨append_ne_empty e (by decide), Or.inl ⟨e, rfl⟩⟩
  · rcases cfL with _ | e
    · intro hfail
      simp [list_tasks] at hfail
    · intro _
      exact ⟨append_ne_empty e (by decide), Or.inl ⟨e, rfl⟩⟩
  · by_cases ht : title = ""
    · subst ht
      intro _
      rfl
    · simp only [add_task, mkTask, if_neg ht]
      rcases cfA with _ | e
      · intro hfail
        simp at hfail
      · intro _
        rfl
  · intro e
    by_cases ht : title = ""
    · subst ht
      rfl
    · simp only [add_task, mkTask, if_neg ht]
  · rcases hfind : findTask db task_id user_id with _ | task
    · simp only [complete_task, hfind]
      intro _
      rfl
    · simp only [complete_task, hfind]
      rcases cfC with _ | e
      · intro hfail
        simp at hfail
      · intro _
        rfl
  · rcases hfind : findTask db task_id user_id with _ | task
    · simp only [update_task, hfind]
      intro _
      rfl
    · simp only [update_task, hfind]
      rcases cfU with _ | e
      · intro hfail
        simp at hfail
      · intro _
        rfl
  · rcases hfind : findTask db task_id user_id with _ | task
    · simp only [delete_task, hfind]
      intro _
      rfl
    · simp only [delete_task, hfind]
      rcases cfD with _ | e
      · intro hfail
        simp at hfail
      · intro _
        rfl
  · intro ht e
    constructor <;> simp only [add_task, mkTask, if_neg ht]

/-- Concrete instance of `task_ops_fail_safely`: an injected refresh fault
after a successful commit returns a failure envelope while the inserted task
is already in the store. -/
theorem task_ops_fail_safely_witness :
    (add_task (fun _ => none) none (some "boom") [] "id" 0 "u1" "T" none
        none none).1.success = false ∧
    (add_task (fun _ => none) none (some "boom") [] "id" 0 "u1" "T" none
        none none).2
      = [⟨"id", "u1", "T", "", false, "medium", none, 0, 0⟩] := by
  have h := (task_ops_fail_safely (fun _ => none) none (some "boom") none
    none none none [] "id" 0 0 0 "u1" "t" "T" none none none none none none
    none none 20).2.2.2.2.2.2.2.2.2.2 (by decide) "boom"
  exact ⟨by rw [h.1]; rfl, h.2⟩

/-- An unparsable due-date argument leaves the task record untouched. -/
theorem applyDueDate_unparsable {parse : String → Option Nat}
    {dueStr : String} {t : Task}
    (hparse : parse (dueStr.replace "Z" "+00:00") = none) :
    applyDueDate parse (some dueStr) t = t := by
  unfold applyDueDate
  by_cases hd : dueStr = ""
  · subst hd
    simp [truthy]
  · simp [truthy, hd, hparse]

/-- Field-level reading of `applyUpdate`: truthy arguments overwrite their
field, everything else is preserved, and `updated_at` is always set. -/
theorem applyUpdate_fields (parse : String → Option Nat)
    (tU dU pU ddU : Option String) (now : Nat) (t : Task) :
    (applyUpdate parse tU dU pU ddU now t).title
      = (if truthy tU then tU.getD "" else t.title) ∧
    (applyUpdate parse tU dU pU ddU now t).description
      = (if truthy dU then dU.getD "" else t.description) ∧
    (applyUpdate parse tU dU pU ddU now t).priority
      = (if truthy pU then pU.getD "" else t.priority) ∧
    (applyUpdate parse tU dU pU ddU now t).due_date
      = (if truthy ddU then
           match parse ((ddU.getD "").replace "Z" "+00:00") with
           | some d => some d
           | none => t.due_date
         else t.due_date) ∧
    (applyUpdate parse tU dU pU ddU now t).id = t.id ∧
    (applyUpdate parse tU dU pU ddU now t).user_id = t.user_id ∧
    (applyUpdate parse tU dU pU ddU now t).completed = t.completed ∧
    (applyUpdate parse tU dU pU ddU now t).created_at = t.created_at ∧
    (applyUpdate parse tU dU pU ddU now t).updated_at = now := by
  unfold applyUpdate applyDueDate
  by_cases h1 : truthy tU <;> by_cases h2 : truthy dU <;>
    by_cases h3 : truthy pU <;> by_cases h4 : truthy ddU <;>
      rcases hp : parse ((ddU.getD "").replace "Z" "+00:00") with _ | d <;>
        simp [h1, h2, h3, h4, hp]

/-- Arguments sent as `None` or `""` are not truthy. -/
theorem truthy_false_of_blank {v : Option String}
    (h : v = none ∨ v = some "") : truthy v = false := by
  rcases h with h | h <;> subst h <;> simp [truthy]

/-- C4: a supplied but unparsable `due_date` never fails the operation:
`add_task` still succeeds and stores the new task with no due date, and
`update_task` still succeeds, storing the task with its due date unchanged
(whatever the other supplied fields are). -/
theorem unparsable_due_ignored (parse : String → Option Nat)
    (db : List Task) (newId : String) (nowA nowU : Nat)
    (user_id task_id title : String) (description priority : Option String)
    (tU dU pU : Option String) (dueStr : String) (task : Task)
    (hparse : parse (dueStr.replace "Z" "+00:00") = none)
    (htitle : title ≠ "")
    (hfind : findTask db task_id user_id = some task) :
    (add_task parse none none db newId nowA user_id title description
        priority (some dueStr)).1.success = true ∧
    (add_task parse none none db newId nowA user_id title description
        priority (some dueStr)).2
      = db ++ [⟨newId, user_id, title, orDefault description "", false,
                orDefault priority "medium", none, nowA, nowA⟩] ∧
    (update_task parse none db nowU user_id task_id tU dU pU
        (some dueStr)).1.success = true ∧
    ∃ pre post, db = pre ++ task :: post ∧
      (update_task parse none db nowU user_id task_id tU dU pU
          (some dueStr)).2
        = pre ++ applyUpdate parse tU dU pU (some dueStr) nowU task
            :: post ∧
      (applyUpdate parse tU dU pU (some dueStr) nowU task).due_date
        = task.due_date := by
  obtain ⟨hm, pre, post, hdb, hpre⟩ := findTask_decomp hfind
  subst hdb
  have hdue : (applyUpdate parse tU dU pU (some dueStr) nowU task).due_date
      = task.due_date := by
    have h4 := (applyUpdate_fields parse tU dU pU (some dueStr) nowU
      task).2.2.2.1
    by_cases hd : dueStr = ""
    · subst hd
      simpa [truthy] using h4
    · simpa [truthy, hd, hparse] using h4
  refine ⟨?_, ?_, ?_, pre, post, rfl, ?_, hdue⟩
  · simp only [add_task, mkTask, if_neg htitle]
  · simp only [add_task, mkTask, if_neg htitle,
      applyDueDate_unparsable hparse]
  · simp only [update_task, hfind]
  · simp only [update_task, hfind]
    exact replaceFirst_append hpre hm

/-- Concrete instance of `unparsable_due_ignored`: a parser rejecting every
string, `add_task` with due `"garbage"` still succeeds. -/
theorem unparsable_due_ignored_witness :
    (add_task (fun _ => none) none none
        [⟨"a", "u1", "T", "", false, "medium", none, 1, 1⟩] "b" 2 "u1"
        "New" none none (some "garbage")).1.success = true :=
  (unparsable_due_ignored (fun _ => none)
    [⟨"a", "u1", "T", "", false, "medium", none, 1, 1⟩] "b" 2 3 "u1" "a"
    "New" none none none none none "garbage"
    ⟨"a", "u1", "T", "", false, "medium", none, 1, 1⟩ rfl (by decide)
    rfl).1

/-- C5: `list_tasks` succeeds with the projections of its chosen rows, and
those rows number at most `limit`, all belong to the requested owner (and
match the completion filter when it is set, while an unset filter constrains
nothing), are ordered by creation time descending, and — when the store has
no more matching rows than `limit` — include every task of that owner that
matches the filter. -/
theorem list_tasks_spec (db : List Task) (user_id : String)
    (completed : Option Bool) (limit : Nat) :
    (list_tasks none db user_id completed limit).success = true ∧
    (list_tasks none db user_id completed limit).tasks
      = some ((listChosen db user_id completed limit).map taskItem) ∧
    (listChosen db user_id completed limit).length ≤ limit ∧
    (∀ t ∈ listChosen db user_id completed limit,
      t ∈ db ∧ t.user_id = user_id ∧
        ∀ c, completed = some c → t.completed = c) ∧
    List.Pairwise (fun a b => b.created_at ≤ a.created_at)
      (listChosen db user_id completed limit) ∧
    ((db.filter (matchesFilter user_id completed)).length ≤ limit →
      ∀ t ∈ db, t.user_id = user_id →
        (∀ c, completed = some c → t.completed = c) →
        t ∈ listChosen db user_id completed limit) := by
  refine ⟨rfl, rfl, List.length_take_le _ _, ?_, ?_, ?_⟩
  · intro t ht
    have h1 : t ∈ (db.filter (matchesFilter user_id completed)).mergeSort
        (fun a b => decide (b.created_at ≤ a.created_at)) :=
      List.take_subset _ _ ht
    rw [List.mem_mergeSort, List.mem_filter] at h1
    obtain ⟨hmem, hmf⟩ := h1
    refine ⟨hmem, ?_, ?_⟩
    · rcases completed with _ | c
      · simp [matchesFilter] at hmf
        exact hmf
      · simp [matchesFilter] at hmf
        exact hmf.1
    · intro c hc
      subst hc
      simp [matchesFilter] at hmf
      exact hmf.2
  · have htrans : ∀ a b c : Task,
        decide (b.created_at ≤ a.created_at) = true →
        decide (c.created_at ≤ b.created_at) = true →
        decide (c.created_at ≤ a.created_at) = true := by
      intro a b c hab hbc
      simp at hab hbc ⊢
      omega
    have htotal : ∀ a b : Task,
        (decide (b.created_at ≤ a.created_at)
          || decide (a.created_at ≤ b.created_at)) = true := by
      intro a b
      simp
      omega
    have hs := List.sorted_mergeSort htrans htotal
      (db.filter (matchesFilter user_id completed))
    have hp : List.Pairwise
        (fun a b : Task => decide (b.created_at ≤ a.created_at) = true)
        (listChosen db user_id completed limit) :=
      List.Pairwise.sublist (List.take_sublist _ _) hs
    exact hp.imp (by intro a b h; simpa using h)
  · intro hlen t ht hu hc
    have hmf : matchesFilter user_id completed t = true := by
      rcases completed with _ | c <;> simp [matchesFilter]
      · exact hu
      · exact ⟨hu, hc c rfl⟩
    have hmem : t ∈ db.filter (matchesFilter user_id completed) :=
      List.mem_filter.mpr ⟨ht, hmf⟩
    unfold listChosen
    rw [List.take_of_length_le]
    · exact List.mem_mergeSort.mpr hmem
    · rw [List.length_mergeSort]
      exact hlen

/-- Concrete instance of `list_tasks_spec`: a two-owner store listed for
`u1`. -/
theorem list_tasks_spec_witness :
    (list_tasks none
        [⟨"a", "u1", "T1", "", false, "medium", none, 5, 5⟩,
         ⟨"b", "u2", "T2", "", false, "medium", none, 9, 9⟩] "u1" none
        20).success = true :=
  (list_tasks_spec
    [⟨"a", "u1", "T1", "", false, "medium", none, 5, 5⟩,
     ⟨"b", "u2", "T2", "", false, "medium", none, 9, 9⟩] "u1" none 20).1

/-- C6: `update_task` has partial-update semantics — it succeeds on the
matched task, rewriting exactly that row; a field supplied as `None` or as
the empty string leaves the stored field unchanged (empty string does not
clear it), a field supplied non-empty overwrites it, and the row identity,
owner, completion flag and creation time are never touched. -/
theorem update_task_partial_semantics (parse : String → Option Nat)
    (db : List Task) (now : Nat) (user_id task_id : String)
    (title description priority due_date : Option String) (task : Task)
    (hfind : findTask db task_id user_id = some task) :
    (update_task parse none db now user_id task_id title description
        priority due_date).1.success = true ∧
    ∃ pre post, db = pre ++ task :: post ∧
      (update_task parse none db now user_id task_id title description
          priority due_date).2
        = pre ++ applyUpdate parse title description priority due_date now
            task :: post ∧
      ((title = none ∨ title = some "") →
        (applyUpdate parse title description priority due_date now
            task).title = task.title) ∧
      (∀ s, title = some s → s ≠ "" →
        (applyUpdate parse title description priority due_date now
            task).title = s) ∧
      ((description = none ∨ description = some "") →
        (applyUpdate parse title description priority due_date now
            task).description = task.description) ∧
      (∀ s, description = some s → s ≠ "" →
        (applyUpdate parse title description priority due_date now
            task).description = s) ∧
      ((priority = none ∨ priority = some "") →
        (applyUpdate parse title description priority due_date now
            task).priority = task.priority) ∧
      (∀ s, priority = some s → s ≠ "" →
        (applyUpdate parse title description priority due_date now
            task).priority = s) ∧
      ((due_date = none ∨ due_date = some "") →
        (applyUpdate parse title description priority due_date now
            task).due_date = task.due_date) ∧
      (applyUpdate parse title description priority due_date now task).id
        = task.id ∧
      (applyUpdate parse title description priority due_date now
          task).user_id = task.user_id ∧
      (applyUpdate parse title description priority due_date now
          task).completed = task.completed ∧
      (applyUpdate parse title description priority due_date now
          task).created_at = task.created_at := by
  obtain ⟨hm, pre, post, hdb, hpre⟩ := findTask_decomp hfind
  subst hdb
  obtain ⟨f1, f2, f3, f4, f5, f6, f7, f8, f9⟩ :=
    applyUpdate_fields parse title description priority due_date now task
  refine ⟨by simp only [update_task, hfind], pre, post, rfl,
    ?_, ?_, ?_, ?_, ?_, ?_, ?_, ?_, f5, f6, f7, f8⟩
  · simp only [update_task, hfind]
    exact replaceFirst_append hpre hm
  · intro h
    rw [f1, truthy_false_of_blank h]
    rfl
  · intro s hs hne
    subst hs
    rw [f1]
    simp [truthy, hne]
  · intro h
    rw [f2, truthy_false_of_blank h]
    rfl
  · intro s hs hne
    subst hs
    rw [f2]
    simp [truthy, hne]
  · intro h
    rw [f3, truthy_false_of_blank h]
    rfl
  · intro s hs hne
    subst hs
    rw [f3]
    simp [truthy, hne]
  · intro h
    rw [f4, truthy_false_of_blank h]
    rfl

/-- Concrete instance of `update_task_partial_semantics`: updating with an
empty-string title does not clear the stored title. -/
theorem update_task_partial_semantics_witness :
    (update_task (fun _ => none) none
        [⟨"a", "u1", "Keep", "", false, "medium", none, 1, 1⟩] 9 "u1" "a"
        (some "") none none none).1.success = true :=
  (update_task_partial_semantics (fun _ => none)
    [⟨"a", "u1", "Keep", "", false, "medium", none, 1, 1⟩] 9 "u1" "a"
    (some "") none none none
    ⟨"a", "u1", "Keep", "", false, "medium", none, 1, 1⟩ rfl).1

/-- C7: `complete_task` is idempotent in effect — on a task matching the
owner, the first call succeeds and stores the task with `completed = true`,
and a second call on the same pair still succeeds and leaves
`completed = true`. -/
theorem complete_task_idempotent (db : List Task) (now1 now2 : Nat)
    (user_id task_id : String) (task : Task)
    (hfind : findTask db task_id user_id = some task) :
    (complete_task none db now1 user_id task_id).1.success = true ∧
    findTask (complete_task none db now1 user_id task_id).2 task_id user_id
      = some { task with completed := true, updated_at := now1 } ∧
    (complete_task none (complete_task none db now1 user_id task_id).2 now2
        user_id task_id).1.success = true ∧
    findTask (complete_task none
        (complete_task none db now1 user_id task_id).2 now2 user_id
        task_id).2 task_id user_id
      = some { task with completed := true, updated_at := now2 } := by
  obtain ⟨hm, pre, post, hdb, hpre⟩ := findTask_decomp hfind
  subst hdb
  have hm1 : taskMatches task_id user_id
      { task with completed := true, updated_at := now1 } = true := by
    simpa [taskMatches] using hm
  have hm2 : taskMatches task_id user_id
      { task with completed := true, updated_at := now2 } = true := by
    simpa [taskMatches] using hm
  have hdb1 : (complete_task none (pre ++ task :: post) now1 user_id
      task_id).2
      = pre ++ { task with completed := true, updated_at := now1 } :: post := by
    simp only [complete_task, hfind]
    exact replaceFirst_append hpre hm
  have hfind1 : findTask (pre ++
      { task with completed := true, updated_at := now1 } :: post) task_id
      user_id
      = some { task with completed := true, updated_at := now1 } :=
    findTask_append hpre hm1
  have hdb2 : (complete_task none (pre ++
      { task with completed := true, updated_at := now1 } :: post) now2
      user_id task_id).2
      = pre ++ { task with completed := true, updated_at := now2 } :: post := by
    simp only [complete_task, hfind1]
    rw [@replaceFirst_append (taskMatches task_id user_id)
      (fun t => { t with completed := true, updated_at := now2 }) pre post
      { task with completed := true, updated_at := now1 } hpre hm1]
  refine ⟨by simp only [complete_task, hfind], ?_, ?_, ?_⟩
  · rw [hdb1]
    exact hfind1
  · rw [hdb1]
    simp only [complete_task, hfind1]
  · rw [hdb1, hdb2]
    exact findTask_append hpre hm2

/-- Concrete instance of `complete_task_idempotent`: completing the same
task twice. -/
theorem complete_task_idempotent_witness :
    (complete_task none
        (complete_task none
          [⟨"a", "u1", "T", "", false, "medium", none, 1, 1⟩] 2 "u1" "a").2
        3 "u1" "a").1.success = true :=
  (complete_task_idempotent
    [⟨"a", "u1", "T", "", false, "medium", none, 1, 1⟩] 2 3 "u1" "a"
    ⟨"a", "u1", "T", "", false, "medium", none, 1, 1⟩ rfl).2.2.1

/-- C8: a chat turn whose inbound message is empty or whitespace-only is
rejected with `InvalidMessageError` and the chat state is returned
untouched: no conversation is created or fetched and no user or assistant
message is persisted. -/
theorem chat_empty_message_rejected (user_id : String)
    (conversation_id : Option Nat) (message aiResponse : String)
    (aiToolCalls : List ToolCallRec)
    (newConvId newMsgId1 newMsgId2 now : Nat) (st : ChatState)
    (h : pyStrip message = "") :
    chat user_id conversation_id message aiResponse aiToolCalls newConvId
        newMsgId1 newMsgId2 now st
      = (.error (.invalidMessage "Message cannot be empty"), st) := by
  have hcond : message = "" ∨ (pyStrip message).length = 0 :=
    Or.inr (by rw [h]; rfl)
  simp only [chat, if_pos hcond]

/-- Concrete instance of `chat_empty_message_rejected`: a whitespace-only
message against an empty state. -/
theorem chat_empty_message_rejected_witness :
    chat "u1" none "   " "ok" [] 1 1 2 5 ⟨[], []⟩
      = (.error (.invalidMessage "Message cannot be empty"), ⟨[], []⟩) :=
  chat_empty_message_rejected "u1" none "   " "ok" [] 1 1 2 5 ⟨[], []⟩
    (by decide)

/-- C9: in a chat turn that passes validation and conversation resolution,
the user message is always persisted, and an assistant-role message holding
the agent textual response is appended if and only if that response is
non-empty; the tool-call trail is returned in the turn result either way. -/
theorem chat_assistant_message_iff_nonempty (user_id : String)
    (conversation_id : Option Nat) (message aiResponse : String)
    (aiToolCalls : List ToolCallRec)
    (newConvId newMsgId1 newMsgId2 now : Nat) (st st1 : ChatState)
    (conv : Conversation)
    (hmsg : pyStrip message ≠ "")
    (hres : resolve_conversation user_id conversation_id newConvId now st
      = .ok (conv, st1)) :
    (chat user_id conversation_id message aiResponse aiToolCalls newConvId
        newMsgId1 newMsgId2 now st).1
      = .ok ⟨conv.id, aiResponse, aiToolCalls⟩ ∧
    (chat user_id conversation_id message aiResponse aiToolCalls newConvId
        newMsgId1 newMsgId2 now st).2.messages
      = st1.messages ++ ⟨newMsgId1, conv.id, "user", message, now⟩ ::
          (if aiResponse = "" then []
           else [⟨newMsgId2, conv.id, "assistant", aiResponse, now⟩]) := by
  have hcond : ¬(message = "" ∨ (pyStrip message).length = 0) := by
    rintro (h | h)
    · exact hmsg (by rw [h]; rfl)
    · exact hmsg (string_length_zero h)
  by_cases hai : aiResponse = ""
  · subst hai
    simp [chat, if_neg hcond, hres, add_message]
  · simp [chat, if_neg hcond, hres, add_message, hai]

/-- Concrete instance of `chat_assistant_message_iff_nonempty`: an empty
agent response persists only the user message. -/
theorem chat_assistant_message_iff_nonempty_witness :
    (chat "u1" none "hi" "" [] 1 1 2 5 ⟨[], []⟩).2.messages
      = [⟨1, 1, "user", "hi", 5⟩] := by
  have h := chat_assistant_message_iff_nonempty "u1" none "hi" "" [] 1 1 2 5
    ⟨[], []⟩ ⟨[⟨1, "u1", 5, 5⟩], []⟩ ⟨1, "u1", 5, 5⟩ (by decide) rfl
  simpa using h.2

/-- C10: `update_task` with every optional field omitted still succeeds and
commits, storing the matched task unchanged except for `updated_at`; and for
every choice of supplied fields a successful update stores the task with
`updated_at` refreshed to the current time. -/
theorem update_task_refreshes_updated_at (parse : String → Option Nat)
    (db : List Task) (now : Nat) (user_id task_id : String) (task : Task)
    (hfind : findTask db task_id user_id = some task) :
    (update_task parse none db now user_id task_id none none none
        none).1.success = true ∧
    (∃ pre post, db = pre ++ task :: post ∧
      (update_task parse none db now user_id task_id none none none none).2
        = pre ++ { task with updated_at := now } :: post) ∧
    ∀ tU dU pU ddU : Option String,
      (update_task parse none db now user_id task_id tU dU pU
          ddU).1.success = true ∧
      (applyUpdate parse tU dU pU ddU now task).updated_at = now := by
  obtain ⟨hm, pre, post, hdb, hpre⟩ := findTask_decomp hfind
  subst hdb
  have hnone : applyUpdate parse none none none none now task
      = { task with updated_at := now } := by
    simp [applyUpdate, applyDueDate, truthy]
  refine ⟨by simp only [update_task, hfind], ⟨pre, post, rfl, ?_⟩, ?_⟩
  · simp only [update_task, hfind]
    rw [replaceFirst_append hpre hm, hnone]
  · intro tU dU pU ddU
    exact ⟨by simp only [update_task, hfind],
      (applyUpdate_fields parse tU dU pU ddU now task).2.2.2.2.2.2.2.2⟩

/-- Concrete instance of `update_task_refreshes_updated_at`: an update with
no fields supplied still reports success. -/
theorem update_task_refreshes_updated_at_witness :
    (update_task (fun _ => none) none
        [⟨"a", "u1", "T", "", false, "medium", none, 1, 1⟩] 7 "u1" "a"
        none none none none).1.success = true :=
  (update_task_refreshes_updated_at (fun _ => none)
    [⟨"a", "u1", "T", "", false, "medium", none, 1, 1⟩] 7 "u1" "a"
    ⟨"a", "u1", "T", "", false, "medium", none, 1, 1⟩ rfl).1

end TodoApp
